import Mathlib

/-!
Shallow embedding of `src/genome.py`: a circular genome with transposable
elements (TEs), in two implementations, `ListGenome` (Python list backed)
and `LinkedListGenome` (circular doubly linked chain with a sentinel head).

The registry `self.TEs` is a Python dict `id -> [start, length, status]`
whose iteration order is insertion order; we model it as an association
list in insertion order.  Python runtime errors that the methods can raise
(`KeyError` on an unknown id, `ZeroDivisionError` on `% 0`) are modelled
with `Except PyErr`.
-/

inductive PyErr where
  | keyError
  | zeroDivisionError
deriving DecidableEq, Repr

/-- One registry record `[start, length, status]`; `status` is the literal
character `'A'` (active) or `'D'` (disabled) used by the source. -/
structure TErec where
  start : Int
  len : Int
  status : Char
deriving DecidableEq, Repr

/-- The dict `self.TEs`, as an association list in insertion order. -/
abbrev Registry := List (Nat × TErec)

/-- `self.TEs[te]` as a lookup (first entry with this key). -/
def lookupTE (TEs : Registry) (te : Nat) : Option TErec :=
  (TEs.find? (fun p => p.1 == te)).map (fun p => p.2)

/-- In-place mutation of the record stored under key `te`
(e.g. `self.TEs[te][2] = 'D'`). -/
def updateTE (TEs : Registry) (te : Nat) (f : TErec → TErec) : Registry :=
  TEs.map (fun p => if p.1 = te then (p.1, f p.2) else p)

/-- The loop `for te in self.TEs: if pos <= self.TEs[te][0]:
self.TEs[te][0] += length` shared by both `insert_te` implementations. -/
def shiftTEs (TEs : Registry) (pos length : Int) : Registry :=
  TEs.map (fun p =>
    if pos ≤ p.2.start then (p.1, { p.2 with start := p.2.start + length }) else p)

/-- The scan condition of `insert_te`: the record is active and
`start < pos and pos < end` with `end = start + length`. -/
def collides (pos : Int) (p : Nat × TErec) : Bool :=
  p.2.status == 'A' && decide (p.2.start < pos) && decide (pos < p.2.start + p.2.len)

/-- The first registry entry the `insert_te` scan would disable
(`for te in self.TEs: ... break`). -/
def findCollision (TEs : Registry) (pos : Int) : Option (Nat × TErec) :=
  TEs.find? (collides pos)

/-- Registry part of the `insert_te` scan: disable the first colliding
active record, if any, then stop. -/
def scanTEs (TEs : Registry) (pos : Int) : Registry :=
  match findCollision TEs pos with
  | some q => updateTE TEs q.1 (fun r => { r with status := 'D' })
  | none => TEs

/-- `[te for te in self.TEs if self.TEs[te][2] == 'A']` (both classes). -/
def activeList (TEs : Registry) : List Nat :=
  (TEs.filter (fun p => p.2.status == 'A')).map (fun p => p.1)

/-- Normalisation of a Python slice endpoint `i` for a sequence of length
`n`: negative indices count from the end, and endpoints clamp to `[0, n]`. -/
def pySliceIdx (n : Nat) (i : Int) : Nat :=
  if i < 0 then ((n : Int) + i).toNat else min i.toNat n

/-- `class ListGenome`: `self.genome` (a list of characters),
`self.TE_counter`, `self.TEs`. -/
structure ListGenome where
  genome : List Char
  TE_counter : Nat
  TEs : Registry
deriving DecidableEq, Repr

/-- `ListGenome.__init__`: `self.genome = ['-']*n`, counter 0, empty dict. -/
def ListGenome.init (n : Nat) : ListGenome :=
  { genome := List.replicate n '-', TE_counter := 0, TEs := [] }

/-- Body of `ListGenome.disable_te` once the record under `te` has been
found: set the status to `'D'` and assign
`self.genome[pos:pos+length] = 'x' * length` (Python slice assignment). -/
def ListGenome.disableCore (g : ListGenome) (te : Nat) (r : TErec) : ListGenome :=
  let n := g.genome.length
  let a := pySliceIdx n r.start
  let b := pySliceIdx n (r.start + r.len)
  { g with
    TEs := updateTE g.TEs te (fun t => { t with status := 'D' }),
    genome := g.genome.take a ++ List.replicate r.len.toNat 'x' ++ g.genome.drop (max a b) }

/-- `ListGenome.disable_te`; `self.TEs[te]` raises `KeyError` on an
unknown id. -/
def ListGenome.disable_te (g : ListGenome) (te : Nat) : Except PyErr ListGenome :=
  match lookupTE g.TEs te with
  | some r => .ok (g.disableCore te r)
  | none => .error .keyError

/-- `ListGenome.insert_te`: bump the counter, scan for (and disable) the
first colliding active TE, splice
`self.genome[:pos] + ['A']*length + self.genome[pos:]`, shift the starts
of records at or after `pos`, and register the new record. -/
def ListGenome.insert_te (g : ListGenome) (pos length : Int) : Nat × ListGenome :=
  let cnt := g.TE_counter + 1
  let g1 := match findCollision g.TEs pos with
            | some q => g.disableCore q.1 q.2
            | none => g
  let i := pySliceIdx g1.genome.length pos
  ( cnt,
    { genome := g1.genome.take i ++ List.replicate length.toNat 'A' ++ g1.genome.drop i,
      TE_counter := cnt,
      TEs := shiftTEs g1.TEs pos length ++ [(cnt, ⟨pos, length, 'A'⟩)] } )

/-- `ListGenome.copy_te`: `KeyError` on an unknown id; on an active record
call `insert_te((pos + offset) % len(self.genome), length)`
(`ZeroDivisionError` when the genome is empty); otherwise return `None`. -/
def ListGenome.copy_te (g : ListGenome) (te : Nat) (offset : Int) :
    Except PyErr (Option Nat × ListGenome) :=
  match lookupTE g.TEs te with
  | none => .error .keyError
  | some r =>
    if r.status = 'A' then
      if g.genome.length = 0 then .error .zeroDivisionError
      else
        let p := g.insert_te ((r.start + offset) % (g.genome.length : Int)) r.len
        .ok (some p.1, p.2)
    else .ok (none, g)

/-- `ListGenome.active_tes`. -/
def ListGenome.active_tes (g : ListGenome) : List Nat :=
  activeList g.TEs

/-- `ListGenome.__len__`. -/
def ListGenome.length (g : ListGenome) : Nat :=
  g.genome.length

/-- `ListGenome.__str__`: `''.join(self.genome)`. -/
def ListGenome.render (g : ListGenome) : String :=
  String.mk g.genome

/-- `class LinkedListGenome`: we record the chain's non-sentinel cells in
`next` order (the sentinel `head` carries no visible cell). -/
structure LinkedListGenome where
  cells : List Char
  TE_counter : Nat
  TEs : Registry
deriving DecidableEq, Repr

/-- `LinkedListGenome.__init__`: `insert_after(self.head, '-')` is run `n`
times; every inserted value is `'-'`, so the chain holds `n` dashes. -/
def LinkedListGenome.init (n : Nat) : LinkedListGenome :=
  { cells := List.replicate n '-', TE_counter := 0, TEs := [] }

/-- Cell part of `LinkedListGenome.insert_te`: walk with `count = 1` from
the first node; when `count == pos` splice `length` copies of `'A'` right
after that node (so they start at index `pos`).  When `pos` never matches
a count in `1..len` the loop falls off the chain and nothing is inserted. -/
def linkedInsertCells (cells : List Char) (pos length : Int) : List Char :=
  if 1 ≤ pos ∧ pos ≤ (cells.length : Int) then
    cells.take pos.toNat ++ List.replicate length.toNat 'A' ++ cells.drop pos.toNat
  else cells

/-- Inner loop of `LinkedListGenome.disable_te`: starting at node `idx`,
`k` times set the current node's value to `'x'` and step to `next`.  Index
`cells.length` stands for the sentinel head: writing its `val` is invisible
and the following node is index 0 again (the chain is circular). -/
def linkedDisableWalk : List Char → Nat → Nat → List Char
  | cells, _, 0 => cells
  | cells, idx, k + 1 =>
    if idx = cells.length then linkedDisableWalk cells 0 k
    else linkedDisableWalk (cells.set idx 'x') (idx + 1) k

/-- Cell part of `LinkedListGenome.disable_te`: walk with `count = 0`;
when `count == pos` (only possible for `0 ≤ pos < len`) run the inner
write loop, else do nothing. -/
def linkedDisableCells (cells : List Char) (pos length : Int) : List Char :=
  if 0 ≤ pos ∧ pos < (cells.length : Int) then
    linkedDisableWalk cells pos.toNat length.toNat
  else cells

/-- Body of `LinkedListGenome.disable_te` once the record is found. -/
def LinkedListGenome.disableCore (g : LinkedListGenome) (te : Nat) (r : TErec) :
    LinkedListGenome :=
  { g with
    TEs := updateTE g.TEs te (fun t => { t with status := 'D' }),
    cells := linkedDisableCells g.cells r.start r.len }

/-- `LinkedListGenome.disable_te`; `KeyError` on an unknown id. -/
def LinkedListGenome.disable_te (g : LinkedListGenome) (te : Nat) :
    Except PyErr LinkedListGenome :=
  match lookupTE g.TEs te with
  | some r => .ok (g.disableCore te r)
  | none => .error .keyError

/-- `LinkedListGenome.insert_te`: identical registry bookkeeping to
`ListGenome.insert_te`; the cells are spliced by `linkedInsertCells`. -/
def LinkedListGenome.insert_te (g : LinkedListGenome) (pos length : Int) :
    Nat × LinkedListGenome :=
  let cnt := g.TE_counter + 1
  let g1 := match findCollision g.TEs pos with
            | some q => g.disableCore q.1 q.2
            | none => g
  ( cnt,
    { cells := linkedInsertCells g1.cells pos length,
      TE_counter := cnt,
      TEs := shiftTEs g1.TEs pos length ++ [(cnt, ⟨pos, length, 'A'⟩)] } )

/-- `LinkedListGenome.copy_te`: as in `ListGenome`, with
`len(self)` computed by traversing the chain. -/
def LinkedListGenome.copy_te (g : LinkedListGenome) (te : Nat) (offset : Int) :
    Except PyErr (Option Nat × LinkedListGenome) :=
  match lookupTE g.TEs te with
  | none => .error .keyError
  | some r =>
    if r.status = 'A' then
      if g.cells.length = 0 then .error .zeroDivisionError
      else
        let p := g.insert_te ((r.start + offset) % (g.cells.length : Int)) r.len
        .ok (some p.1, p.2)
    else .ok (none, g)

/-- `LinkedListGenome.active_tes`. -/
def LinkedListGenome.active_tes (g : LinkedListGenome) : List Nat :=
  activeList g.TEs

/-- `LinkedListGenome.__len__`: a full traversal counts the cells. -/
def LinkedListGenome.length (g : LinkedListGenome) : Nat :=
  g.cells.length

/-- `LinkedListGenome.__str__`. -/
def LinkedListGenome.render (g : LinkedListGenome) : String :=
  String.mk g.cells

/-! ### Specification-side predicates and reachability -/

/-- Pointwise description of a disabled interval: cell `i` of `post` is
`'x'` for `s ≤ i < s + L` and is the cell of `pre` elsewhere. -/
def CellsDisabled (pre post : List Char) (s L : Int) : Prop :=
  ∀ i : Nat, post[i]? = if s ≤ (i : Int) ∧ (i : Int) < s + L then some 'x' else pre[i]?

/-- Every record of `pre` is still present in `post` with the same `start`
and `length` bookkeeping. -/
def RegistryFrame (pre post : Registry) : Prop :=
  ∀ id r₀, lookupTE pre id = some r₀ →
    ∃ r₁, lookupTE post id = some r₁ ∧ r₁.start = r₀.start ∧ r₁.len = r₀.len

/-- The open interval of the record strictly contains `pos`
(`start < pos < start + length`). -/
def StrictlyContains (p : Nat × TErec) (pos : Int) : Prop :=
  p.2.start < pos ∧ pos < p.2.start + p.2.len

/-- The half-open intervals `[start, start+length)` of distinct active
records are pairwise disjoint. -/
def DisjointActives (TEs : Registry) : Prop :=
  ∀ p ∈ TEs, ∀ q ∈ TEs, p.1 ≠ q.1 → p.2.status = 'A' → q.2.status = 'A' →
    p.2.start + p.2.len ≤ q.2.start ∨ q.2.start + q.2.len ≤ p.2.start

/-- Registry invariant carried through every reachable state: keys are
bounded by the counter and distinct, recorded lengths are positive, and
active intervals are pairwise disjoint. -/
def RegInv (cnt : Nat) (TEs : Registry) : Prop :=
  (∀ p ∈ TEs, p.1 ≤ cnt) ∧ ((TEs.map Prod.fst).Nodup ∧
  (∀ p ∈ TEs, 1 ≤ p.2.len) ∧ DisjointActives TEs)

/-- States of `ListGenome` reachable by in-range operations: construction,
`insert_te` with `0 ≤ pos ≤ len` and `length ≥ 1`, and any `copy_te` or
`disable_te` call that completes without a Python exception. -/
inductive ReachableL : ListGenome → Prop where
  | init (n : Nat) : ReachableL (ListGenome.init n)
  | insert (g : ListGenome) (pos length : Int) : ReachableL g →
      0 ≤ pos → pos ≤ (g.genome.length : Int) → 1 ≤ length →
      ReachableL (g.insert_te pos length).2
  | copy (g g' : ListGenome) (te : Nat) (off : Int) (res : Option Nat) :
      ReachableL g → g.copy_te te off = .ok (res, g') → ReachableL g'
  | disable (g g' : ListGenome) (te : Nat) :
      ReachableL g → g.disable_te te = .ok g' → ReachableL g'

/-- States of `LinkedListGenome` reachable by in-range operations. -/
inductive ReachableLL : LinkedListGenome → Prop where
  | init (n : Nat) : ReachableLL (LinkedListGenome.init n)
  | insert (g : LinkedListGenome) (pos length : Int) : ReachableLL g →
      0 ≤ pos → pos ≤ (g.cells.length : Int) → 1 ≤ length →
      ReachableLL (g.insert_te pos length).2
  | copy (g g' : LinkedListGenome) (te : Nat) (off : Int) (res : Option Nat) :
      ReachableLL g → g.copy_te te off = .ok (res, g') → ReachableLL g'
  | disable (g g' : LinkedListGenome) (te : Nat) :
      ReachableLL g → g.disable_te te = .ok g' → ReachableLL g'

/-! ### Registry lookup lemmas -/

lemma lookupTE_some_elim {TEs : Registry} {te : Nat} {r : TErec}
    (h : lookupTE TEs te = some r) :
    ∃ p, TEs.find? (fun q => q.1 == te) = some p ∧ p.1 = te ∧ p.2 = r := by
  unfold lookupTE at h
  cases hf : TEs.find? (fun q => q.1 == te) with
  | none => rw [hf] at h; exact absurd h (by simp)
  | some p =>
    refine ⟨p, rfl, ?_, ?_⟩
    · have hp := List.find?_some hf
      simpa using hp
    · rw [hf] at h; simpa using h

lemma find?_key_map (TEs : Registry) (f : Nat × TErec → Nat × TErec)
    (hk : ∀ p, (f p).1 = p.1) (te : Nat) :
    (TEs.map f).find? (fun p => p.1 == te) = (TEs.find? (fun p => p.1 == te)).map f := by
  rw [List.find?_map]
  have hfn : ((fun p : Nat × TErec => p.1 == te) ∘ f) = (fun p : Nat × TErec => p.1 == te) := by
    funext p
    simp [Function.comp, hk]
  rw [hfn]

lemma lookupTE_updateTE_some {TEs : Registry} {te : Nat} {r : TErec}
    (f : TErec → TErec) (h : lookupTE TEs te = some r) (te' : Nat) :
    lookupTE (updateTE TEs te' f) te = some (if te = te' then f r else r) := by
  obtain ⟨p, hf, hk, hr⟩ := lookupTE_some_elim h
  unfold lookupTE updateTE
  rw [find?_key_map _ _ (fun q => by by_cases hq : q.1 = te' <;> simp [hq]), hf]
  subst hk; subst hr
  by_cases hq : p.1 = te' <;> simp [hq]

lemma lookupTE_shiftTEs_some {TEs : Registry} {te : Nat} {r : TErec}
    (pos L : Int) (h : lookupTE TEs te = some r) :
    lookupTE (shiftTEs TEs pos L) te =
      some (if pos ≤ r.start then { r with start := r.start + L } else r) := by
  obtain ⟨p, hf, hk, hr⟩ := lookupTE_some_elim h
  unfold lookupTE shiftTEs
  rw [find?_key_map _ _ (fun q => by by_cases hq : pos ≤ q.2.start <;> simp [hq]), hf]
  subst hk; subst hr
  by_cases hs : pos ≤ p.2.start <;> simp [hs]

lemma lookupTE_append_some {A : Registry} {te : Nat} {r : TErec}
    (B : Registry) (h : lookupTE A te = some r) :
    lookupTE (A ++ B) te = some r := by
  obtain ⟨p, hf, hk, hr⟩ := lookupTE_some_elim h
  unfold lookupTE
  rw [List.find?_append, hf]
  simp [hr]

/-- The registry produced by `insert_te` in either implementation. -/
lemma lookupTE_insert_reg (TEs : Registry) (cnt : Nat) (pos L : Int)
    {te : Nat} {r : TErec} (h : lookupTE TEs te = some r) :
    lookupTE (shiftTEs (scanTEs TEs pos) pos L ++ [(cnt, ⟨pos, L, 'A'⟩)]) te =
      some { start := if pos ≤ r.start then r.start + L else r.start
             len := r.len
             status := match findCollision TEs pos with
                       | some q => if q.1 = te then 'D' else r.status
                       | none => r.status } := by
  cases hc : findCollision TEs pos with
  | none =>
    have h1 : lookupTE (scanTEs TEs pos) te = some r := by
      unfold scanTEs; rw [hc]; exact h
    have h2 := lookupTE_shiftTEs_some pos L h1
    refine (lookupTE_append_some _ h2).trans ?_
    by_cases hs : pos ≤ r.start <;> simp [hs]
  | some q =>
    by_cases hq : q.1 = te
    · have h1 : lookupTE (scanTEs TEs pos) te = some { r with status := 'D' } := by
        unfold scanTEs
        rw [hc, lookupTE_updateTE_some _ h q.1]
        simp [hq]
      have h2 := lookupTE_shiftTEs_some pos L h1
      refine (lookupTE_append_some _ h2).trans ?_
      by_cases hs : pos ≤ r.start <;> simp [hs, hq]
    · have h1 : lookupTE (scanTEs TEs pos) te = some r := by
        unfold scanTEs
        rw [hc, lookupTE_updateTE_some _ h q.1]
        simp [Ne.symm hq]
      have h2 := lookupTE_shiftTEs_some pos L h1
      refine (lookupTE_append_some _ h2).trans ?_
      by_cases hs : pos ≤ r.start <;> simp [hs, hq]

/-- `insert_te` leaves exactly this registry (list implementation). -/
lemma list_insert_te_TEs (g : ListGenome) (pos L : Int) :
    ((g.insert_te pos L).2).TEs =
      shiftTEs (scanTEs g.TEs pos) pos L ++ [(g.TE_counter + 1, ⟨pos, L, 'A'⟩)] := by
  cases hc : findCollision g.TEs pos with
  | none => simp [ListGenome.insert_te, scanTEs, hc]
  | some q => simp [ListGenome.insert_te, scanTEs, hc, ListGenome.disableCore]

/-- `insert_te` leaves exactly this registry (linked implementation). -/
lemma linked_insert_te_TEs (g : LinkedListGenome) (pos L : Int) :
    ((g.insert_te pos L).2).TEs =
      shiftTEs (scanTEs g.TEs pos) pos L ++ [(g.TE_counter + 1, ⟨pos, L, 'A'⟩)] := by
  cases hc : findCollision g.TEs pos with
  | none => simp [LinkedListGenome.insert_te, scanTEs, hc]
  | some q => simp [LinkedListGenome.insert_te, scanTEs, hc, LinkedListGenome.disableCore]

/-!
### Claims C1, C2: the linked implementation inserts nothing at `pos = 0`

The walk in `LinkedListGenome.insert_te` starts its counter at 1, so
`count == pos` never fires for `pos = 0` and the chain is left untouched
even though the registry records the new TE.
-/

/-- Claim C1 (refuted): the two implementations do not render identically
under identical operation sequences.  On a size-1 genome, `insert_te(0, 1)`
renders `"A-"` in `ListGenome` but `"-"` in `LinkedListGenome`. -/
theorem claim_C1_divergence :
    ((ListGenome.init 1).insert_te 0 1).2.render = "A-" ∧
    ((LinkedListGenome.init 1).insert_te 0 1).2.render = "-" ∧
    ((ListGenome.init 1).insert_te 0 1).2.render ≠
      ((LinkedListGenome.init 1).insert_te 0 1).2.render := by
  refine ⟨rfl, rfl, ?_⟩
  decide

/-- Claim C2 (refuted for the linked implementation): with the in-range
call `insert_te(0, 1)` on a size-1 genome, `ListGenome` grows to length 2
but `LinkedListGenome.length()` stays 1. -/
theorem claim_C2_divergence :
    ((ListGenome.init 1).insert_te 0 1).2.length = 2 ∧
    ((LinkedListGenome.init 1).insert_te 0 1).2.length = 1 := by
  exact ⟨rfl, rfl⟩

/-- Claim C5 (refuted for unknown ids): on a fresh genome of size 5 with an
empty registry, `copy_te(99, 3)` and `disable_te(99)` raise `KeyError`
(`self.TEs[te]` on a missing key) in both implementations instead of
taking the documented none/no-op path. -/
theorem claim_C5_divergence :
    (ListGenome.init 5).copy_te 99 3 = .error .keyError ∧
    (LinkedListGenome.init 5).copy_te 99 3 = .error .keyError ∧
    (ListGenome.init 5).disable_te 99 = .error .keyError ∧
    (LinkedListGenome.init 5).disable_te 99 = .error .keyError := by
  exact ⟨rfl, rfl, rfl, rfl⟩

/-- Claim C9 (counterexample): after `insert_te(3, 2)` on a fresh size-10
genome the rendering is not the 11-character literal `"---AA------"`
claimed by the spec (the state has 12 cells). -/
theorem claim_C9_counterexample :
    ((ListGenome.init 10).insert_te 3 2).2.render ≠ "---AA------" := by
  decide

/-- Claim C9 (amended): a fresh genome of size n has length n and renders
as n dashes in both implementations; on a fresh size-10 genome,
`insert_te(3, 2)` returns id 1, the length becomes 12 and both
implementations render the 12-character string `"---AA-------"`. -/
theorem claim_C9_amended :
    (∀ n : Nat,
      (ListGenome.init n).length = n ∧
      (LinkedListGenome.init n).length = n ∧
      (ListGenome.init n).render = String.mk (List.replicate n '-') ∧
      (LinkedListGenome.init n).render = String.mk (List.replicate n '-')) ∧
    ((ListGenome.init 10).insert_te 3 2).1 = 1 ∧
    ((ListGenome.init 10).insert_te 3 2).2.length = 12 ∧
    ((ListGenome.init 10).insert_te 3 2).2.render = "---AA-------" ∧
    ((LinkedListGenome.init 10).insert_te 3 2).1 = 1 ∧
    ((LinkedListGenome.init 10).insert_te 3 2).2.length = 12 ∧
    ((LinkedListGenome.init 10).insert_te 3 2).2.render = "---AA-------" := by
  refine ⟨fun n => ⟨?_, ?_, rfl, rfl⟩, rfl, rfl, rfl, rfl, rfl, rfl⟩
  · simp [ListGenome.init, ListGenome.length]
  · simp [LinkedListGenome.init, LinkedListGenome.length]

/-- Claim C7 (counterexample): called with the out-of-range position 5 on a
size-2 genome, `insert_te` reports no failure in either implementation: it
returns the fresh id 1, registers the TE as active, and silently mutates
(the list version splices at the end, the linked version inserts no cell
at all). -/
theorem claim_C7_counterexample :
    ((ListGenome.init 2).insert_te 5 1).1 = 1 ∧
    ((ListGenome.init 2).insert_te 5 1).2.render = "--A" ∧
    ((LinkedListGenome.init 2).insert_te 5 1).1 = 1 ∧
    ((LinkedListGenome.init 2).insert_te 5 1).2.render = "--" ∧
    ((ListGenome.init 2).insert_te 5 1).2.active_tes = [1] ∧
    ((LinkedListGenome.init 2).insert_te 5 1).2.active_tes = [1] := by
  exact ⟨rfl, rfl, rfl, rfl, rfl, rfl⟩

lemma mem_activeList_of_mem {TEs : Registry} {p : Nat × TErec}
    (hp : p ∈ TEs) (hA : p.2.status = 'A') : p.1 ∈ activeList TEs := by
  unfold activeList
  exact List.mem_map_of_mem _ (List.mem_filter.mpr ⟨hp, by simp [hA]⟩)

/-- Claim C7 (amended): `insert_te` with an out-of-range `pos` (negative,
or strictly greater than the current length) does not fail in either
implementation: it returns the fresh id `TE_counter + 1`, appends the
record `(pos, length, 'A')` to the registry, and the new id appears in
`active_tes()`.  When no active TE collides with `pos`, the cells change
as follows: the list implementation splices at the Python-normalised
index — at the end for `pos` greater than the length, at
`max(0, length + pos)` for negative `pos` — while the linked
implementation inserts no cells at all for any out-of-range `pos`. -/
theorem claim_C7_amended (g : ListGenome) (g2 : LinkedListGenome) (pos len : Int)
    (hc : findCollision g.TEs pos = none)
    (hc2 : findCollision g2.TEs pos = none) :
    (g.insert_te pos len).1 = g.TE_counter + 1 ∧
    (g.TE_counter + 1, ⟨pos, len, 'A'⟩) ∈ ((g.insert_te pos len).2).TEs ∧
    g.TE_counter + 1 ∈ ((g.insert_te pos len).2).active_tes ∧
    ((g.genome.length : Int) < pos →
      ((g.insert_te pos len).2).genome = g.genome ++ List.replicate len.toNat 'A') ∧
    (pos < 0 →
      ((g.insert_te pos len).2).genome =
        g.genome.take ((g.genome.length : Int) + pos).toNat ++
          List.replicate len.toNat 'A' ++
          g.genome.drop ((g.genome.length : Int) + pos).toNat) ∧
    (g2.insert_te pos len).1 = g2.TE_counter + 1 ∧
    (g2.TE_counter + 1, ⟨pos, len, 'A'⟩) ∈ ((g2.insert_te pos len).2).TEs ∧
    g2.TE_counter + 1 ∈ ((g2.insert_te pos len).2).active_tes ∧
    ((pos < 0 ∨ (g2.cells.length : Int) < pos) →
      ((g2.insert_te pos len).2).cells = g2.cells) := by
  refine ⟨rfl, ?_, ?_, ?_, ?_, rfl, ?_, ?_, ?_⟩
  · rw [list_insert_te_TEs g pos len]
    exact List.mem_append_right _ (List.mem_singleton_self _)
  · show g.TE_counter + 1 ∈ activeList ((g.insert_te pos len).2).TEs
    rw [list_insert_te_TEs g pos len]
    exact mem_activeList_of_mem
      (List.mem_append_right _ (List.mem_singleton_self _)) rfl
  · intro hp
    have hn : pySliceIdx g.genome.length pos = g.genome.length := by
      unfold pySliceIdx
      rw [if_neg (by omega)]
      omega
    simp [ListGenome.insert_te, hc, hn, List.take_length, List.drop_length]
  · intro hneg
    have hn : pySliceIdx g.genome.length pos = ((g.genome.length : Int) + pos).toNat := by
      unfold pySliceIdx
      rw [if_pos hneg]
    simp [ListGenome.insert_te, hc, hn]
  · rw [linked_insert_te_TEs g2 pos len]
    exact List.mem_append_right _ (List.mem_singleton_self _)
  · show g2.TE_counter + 1 ∈ activeList ((g2.insert_te pos len).2).TEs
    rw [linked_insert_te_TEs g2 pos len]
    exact mem_activeList_of_mem
      (List.mem_append_right _ (List.mem_singleton_self _)) rfl
  · intro hout
    simp [LinkedListGenome.insert_te, hc2, linkedInsertCells]
    intro h1 h2
    rcases hout with h | h <;> omega

/-- Witness for the amended claim C7 at a concrete input. -/
theorem claim_C7_amended_witness :
    (findCollision (ListGenome.init 2).TEs 5 = none ∧
     findCollision (LinkedListGenome.init 2).TEs 5 = none) ∧
    (((ListGenome.init 2).insert_te 5 1).1 = (ListGenome.init 2).TE_counter + 1 ∧
     ((ListGenome.init 2).TE_counter + 1, ⟨5, 1, 'A'⟩) ∈
       (((ListGenome.init 2).insert_te 5 1).2).TEs ∧
     (ListGenome.init 2).TE_counter + 1 ∈
       (((ListGenome.init 2).insert_te 5 1).2).active_tes ∧
     (((ListGenome.init 2).genome.length : Int) < 5 →
       (((ListGenome.init 2).insert_te 5 1).2).genome =
         (ListGenome.init 2).genome ++ List.replicate (1 : Int).toNat 'A') ∧
     ((5 : Int) < 0 →
       (((ListGenome.init 2).insert_te 5 1).2).genome =
         (ListGenome.init 2).genome.take (((ListGenome.init 2).genome.length : Int) + 5).toNat ++
           List.replicate (1 : Int).toNat 'A' ++
           (ListGenome.init 2).genome.drop (((ListGenome.init 2).genome.length : Int) + 5).toNat) ∧
     ((LinkedListGenome.init 2).insert_te 5 1).1 = (LinkedListGenome.init 2).TE_counter + 1 ∧
     ((LinkedListGenome.init 2).TE_counter + 1, ⟨5, 1, 'A'⟩) ∈
       (((LinkedListGenome.init 2).insert_te 5 1).2).TEs ∧
     (LinkedListGenome.init 2).TE_counter + 1 ∈
       (((LinkedListGenome.init 2).insert_te 5 1).2).active_tes ∧
     (((5 : Int) < 0 ∨ ((LinkedListGenome.init 2).cells.length : Int) < 5) →
       (((LinkedListGenome.init 2).insert_te 5 1).2).cells = (LinkedListGenome.init 2).cells)) :=
  ⟨⟨rfl, rfl⟩,
   claim_C7_amended (ListGenome.init 2) (LinkedListGenome.init 2) 5 1 rfl rfl⟩

/-!
### Claims C3 and C4: the registry bookkeeping of `insert_te`
-/

/-- Claim C3: `insert_te` disables at most one record per call.  A record's
status after the call is `'D'` exactly when it is the first record of the
scan (registry order) that is active and whose open interval strictly
contains `pos`; every other pre-existing record keeps its status.  The
conjuncts about `findCollision` spell out the strict-containment test
(`start < pos < start + length`), so a TE whose start or end equals `pos`
is never the disabled one. -/
theorem claim_C3_scan (g : ListGenome) (g2 : LinkedListGenome)
    (pos pos2 len len2 : Int) (te te2 : Nat) (r r2 : TErec)
    (h : lookupTE g.TEs te = some r) (h2 : lookupTE g2.TEs te2 = some r2) :
    (∃ r', lookupTE ((g.insert_te pos len).2).TEs te = some r' ∧
       r'.status = (match findCollision g.TEs pos with
                    | some q => if q.1 = te then 'D' else r.status
                    | none => r.status)) ∧
    (∀ q, findCollision g.TEs pos = some q →
       q.2.status = 'A' ∧ q.2.start < pos ∧ pos < q.2.start + q.2.len) ∧
    (∃ r', lookupTE ((g2.insert_te pos2 len2).2).TEs te2 = some r' ∧
       r'.status = (match findCollision g2.TEs pos2 with
                    | some q => if q.1 = te2 then 'D' else r2.status
                    | none => r2.status)) ∧
    (∀ q, findCollision g2.TEs pos2 = some q →
       q.2.status = 'A' ∧ q.2.start < pos2 ∧ pos2 < q.2.start + q.2.len) := by
  refine ⟨?_, ?_, ?_, ?_⟩
  · rw [list_insert_te_TEs g pos len]
    exact ⟨_, lookupTE_insert_reg _ _ _ _ h, rfl⟩
  · intro q hq
    have := List.find?_some hq
    simp [collides] at this
    exact ⟨this.1.1, this.1.2, this.2⟩
  · rw [linked_insert_te_TEs g2 pos2 len2]
    exact ⟨_, lookupTE_insert_reg _ _ _ _ h2, rfl⟩
  · intro q hq
    have := List.find?_some hq
    simp [collides] at this
    exact ⟨this.1.1, this.1.2, this.2⟩

/-- Witness for claim C3 at a concrete input: one active record `[0,2,'A']`
with id 1, insertion at `pos = 1` (strictly inside), in both
implementations. -/
theorem claim_C3_scan_witness :
    (lookupTE [(1, ⟨0, 2, 'A'⟩)] 1 = some ⟨0, 2, 'A'⟩) ∧
    ((∃ r', lookupTE ((ListGenome.mk ['A', 'A', '-'] 1 [(1, ⟨0, 2, 'A'⟩)]).insert_te 1 3).2.TEs 1
         = some r' ∧
       r'.status = (match findCollision [(1, (⟨0, 2, 'A'⟩ : TErec))] 1 with
                    | some q => if q.1 = 1 then 'D' else 'A'
                    | none => 'A')) ∧
     (∀ q, findCollision [(1, (⟨0, 2, 'A'⟩ : TErec))] 1 = some q →
        q.2.status = 'A' ∧ q.2.start < 1 ∧ 1 < q.2.start + q.2.len) ∧
     (∃ r', lookupTE ((LinkedListGenome.mk ['A', 'A', '-'] 1 [(1, ⟨0, 2, 'A'⟩)]).insert_te 1 3).2.TEs 1
         = some r' ∧
       r'.status = (match findCollision [(1, (⟨0, 2, 'A'⟩ : TErec))] 1 with
                    | some q => if q.1 = 1 then 'D' else 'A'
                    | none => 'A')) ∧
     (∀ q, findCollision [(1, (⟨0, 2, 'A'⟩ : TErec))] 1 = some q →
        q.2.status = 'A' ∧ q.2.start < 1 ∧ 1 < q.2.start + q.2.len)) :=
  ⟨by decide,
   claim_C3_scan (ListGenome.mk ['A', 'A', '-'] 1 [(1, ⟨0, 2, 'A'⟩)])
     (LinkedListGenome.mk ['A', 'A', '-'] 1 [(1, ⟨0, 2, 'A'⟩)])
     1 1 3 3 1 1 ⟨0, 2, 'A'⟩ ⟨0, 2, 'A'⟩ (by decide) (by decide)⟩

/-- Claim C4: after `insert_te(pos, length)`, every pre-existing record
whose start was `≥ pos` (including a record starting exactly at `pos`) has
its start increased by exactly `length`, and every record whose start was
`< pos` keeps its start; recorded lengths are unchanged in every case. -/
theorem claim_C4_shift (g : ListGenome) (g2 : LinkedListGenome)
    (pos pos2 len len2 : Int) (te te2 : Nat) (r r2 : TErec)
    (h : lookupTE g.TEs te = some r) (h2 : lookupTE g2.TEs te2 = some r2) :
    (∃ r', lookupTE ((g.insert_te pos len).2).TEs te = some r' ∧
       r'.start = (if pos ≤ r.start then r.start + len else r.start) ∧
       r'.len = r.len) ∧
    (∃ r', lookupTE ((g2.insert_te pos2 len2).2).TEs te2 = some r' ∧
       r'.start = (if pos2 ≤ r2.start then r2.start + len2 else r2.start) ∧
       r'.len = r2.len) := by
  constructor
  · rw [list_insert_te_TEs g pos len]
    exact ⟨_, lookupTE_insert_reg _ _ _ _ h, rfl, rfl⟩
  · rw [linked_insert_te_TEs g2 pos2 len2]
    exact ⟨_, lookupTE_insert_reg _ _ _ _ h2, rfl, rfl⟩

/-- Witness for claim C4 at a concrete input: a record starting at 4 is
shifted by an insertion at `pos = 2`; the record keeps its length. -/
theorem claim_C4_shift_witness :
    (lookupTE [(1, ⟨4, 2, 'A'⟩)] 1 = some ⟨4, 2, 'A'⟩) ∧
    ((∃ r', lookupTE ((ListGenome.mk ['-', '-', '-', '-', 'A', 'A'] 1 [(1, ⟨4, 2, 'A'⟩)]).insert_te 2 3).2.TEs 1
         = some r' ∧
       r'.start = (if (2 : Int) ≤ 4 then (4 : Int) + 3 else 4) ∧
       r'.len = 2) ∧
     (∃ r', lookupTE ((LinkedListGenome.mk ['-', '-', '-', '-', 'A', 'A'] 1 [(1, ⟨4, 2, 'A'⟩)]).insert_te 2 3).2.TEs 1
         = some r' ∧
       r'.start = (if (2 : Int) ≤ 4 then (4 : Int) + 3 else 4) ∧
       r'.len = 2)) :=
  ⟨by decide,
   claim_C4_shift (ListGenome.mk ['-', '-', '-', '-', 'A', 'A'] 1 [(1, ⟨4, 2, 'A'⟩)])
     (LinkedListGenome.mk ['-', '-', '-', '-', 'A', 'A'] 1 [(1, ⟨4, 2, 'A'⟩)])
     2 2 3 3 1 1 ⟨4, 2, 'A'⟩ ⟨4, 2, 'A'⟩ (by decide) (by decide)⟩

/-!
### Claim C6: `copy_te` on an active TE delegates to `insert_te`
-/

/-- Claim C6: when `te` is active with record `(s, L)`, `copy_te(te, off)`
returns exactly what `insert_te((s + off) mod length(), L)` returns, where
`length()` is measured before the copy; the target position is wrapped into
`[0, length())` for positive and negative offsets alike.  The collision
scan of that `insert_te` runs against the current registry, so the copy is
subject to the same disable rule, including against the source TE. -/
theorem claim_C6_copy (g : ListGenome) (g2 : LinkedListGenome)
    (te te2 : Nat) (off off2 : Int) (r r2 : TErec)
    (h : lookupTE g.TEs te = some r) (hA : r.status = 'A')
    (hn : g.length ≠ 0)
    (h2 : lookupTE g2.TEs te2 = some r2) (hA2 : r2.status = 'A')
    (hn2 : g2.length ≠ 0) :
    g.copy_te te off =
      .ok (some (g.insert_te ((r.start + off) % (g.length : Int)) r.len).1,
           (g.insert_te ((r.start + off) % (g.length : Int)) r.len).2) ∧
    0 ≤ (r.start + off) % (g.length : Int) ∧
    (r.start + off) % (g.length : Int) < (g.length : Int) ∧
    g2.copy_te te2 off2 =
      .ok (some (g2.insert_te ((r2.start + off2) % (g2.length : Int)) r2.len).1,
           (g2.insert_te ((r2.start + off2) % (g2.length : Int)) r2.len).2) ∧
    0 ≤ (r2.start + off2) % (g2.length : Int) ∧
    (r2.start + off2) % (g2.length : Int) < (g2.length : Int) := by
  have hn' : g.genome.length ≠ 0 := hn
  have hn2' : g2.cells.length ≠ 0 := hn2
  refine ⟨?_, ?_, ?_, ?_, ?_, ?_⟩
  · simp [ListGenome.copy_te, h, hA, hn', ListGenome.length]
  · exact Int.emod_nonneg _ (by exact_mod_cast hn')
  · exact Int.emod_lt_of_pos _ (by exact_mod_cast Nat.pos_of_ne_zero hn')
  · simp [LinkedListGenome.copy_te, h2, hA2, hn2', LinkedListGenome.length]
  · exact Int.emod_nonneg _ (by exact_mod_cast hn2')
  · exact Int.emod_lt_of_pos _ (by exact_mod_cast Nat.pos_of_ne_zero hn2')

/-- Witness for claim C6 at a concrete input: copying the active TE 1 of
record `[1, 2, 'A']` by offset −4 on a length-5 genome targets
`(1 − 4) mod 5 = 2`. -/
theorem claim_C6_copy_witness :
    (lookupTE [(1, ⟨1, 2, 'A'⟩)] 1 = some ⟨1, 2, 'A'⟩ ∧
     (ListGenome.mk ['-', 'A', 'A', '-', '-'] 1 [(1, ⟨1, 2, 'A'⟩)]).length ≠ 0) ∧
    ((ListGenome.mk ['-', 'A', 'A', '-', '-'] 1 [(1, ⟨1, 2, 'A'⟩)]).copy_te 1 (-4) =
      .ok (some ((ListGenome.mk ['-', 'A', 'A', '-', '-'] 1 [(1, ⟨1, 2, 'A'⟩)]).insert_te
                  (((1 : Int) + (-4)) % ((5 : Nat) : Int)) 2).1,
           ((ListGenome.mk ['-', 'A', 'A', '-', '-'] 1 [(1, ⟨1, 2, 'A'⟩)]).insert_te
                  (((1 : Int) + (-4)) % ((5 : Nat) : Int)) 2).2) ∧
     0 ≤ ((1 : Int) + (-4)) % ((5 : Nat) : Int) ∧
     ((1 : Int) + (-4)) % ((5 : Nat) : Int) < ((5 : Nat) : Int) ∧
     (LinkedListGenome.mk ['-', 'A', 'A', '-', '-'] 1 [(1, ⟨1, 2, 'A'⟩)]).copy_te 1 (-4) =
      .ok (some ((LinkedListGenome.mk ['-', 'A', 'A', '-', '-'] 1 [(1, ⟨1, 2, 'A'⟩)]).insert_te
                  (((1 : Int) + (-4)) % ((5 : Nat) : Int)) 2).1,
           ((LinkedListGenome.mk ['-', 'A', 'A', '-', '-'] 1 [(1, ⟨1, 2, 'A'⟩)]).insert_te
                  (((1 : Int) + (-4)) % ((5 : Nat) : Int)) 2).2) ∧
     0 ≤ ((1 : Int) + (-4)) % ((5 : Nat) : Int) ∧
     ((1 : Int) + (-4)) % ((5 : Nat) : Int) < ((5 : Nat) : Int)) :=
  ⟨⟨by decide, by decide⟩,
   claim_C6_copy (ListGenome.mk ['-', 'A', 'A', '-', '-'] 1 [(1, ⟨1, 2, 'A'⟩)])
     (LinkedListGenome.mk ['-', 'A', 'A', '-', '-'] 1 [(1, ⟨1, 2, 'A'⟩)])
     1 1 (-4) (-4) ⟨1, 2, 'A'⟩ ⟨1, 2, 'A'⟩
     (by decide) (by decide) (by decide) (by decide) (by decide) (by decide)⟩

/-!
### Claim C8: semantics of `disable_te`
-/

lemma linkedDisableWalk_length (cells : List Char) (idx k : Nat) :
    (linkedDisableWalk cells idx k).length = cells.length := by
  induction k generalizing cells idx with
  | zero => rfl
  | succ k ih =>
    unfold linkedDisableWalk
    by_cases h : idx = cells.length <;> simp [h, ih]

lemma linkedDisableWalk_getElem? (cells : List Char) (idx k i : Nat)
    (h : idx + k ≤ cells.length) :
    (linkedDisableWalk cells idx k)[i]? =
      if idx ≤ i ∧ i < idx + k then some 'x' else cells[i]? := by
  induction k generalizing cells idx with
  | zero =>
    rw [if_neg (by omega)]
    rfl
  | succ k ih =>
    have hidx : ¬ idx = cells.length := by omega
    unfold linkedDisableWalk
    rw [if_neg hidx]
    rw [ih (cells.set idx 'x') (idx + 1) (by rw [List.length_set]; omega)]
    by_cases hi : i = idx
    · subst hi
      rw [List.getElem?_set_self (by omega)]
      split_ifs <;> first | rfl | (exfalso; omega)
    · rw [List.getElem?_set_ne (fun hh => hi hh.symm)]
      split_ifs <;> first | rfl | (exfalso; omega)

/-- Pointwise effect of the Python slice assignment
`l[a : a+k] = 'x' * k` when the interval lies inside the list. -/
lemma overwrite_getElem? (l : List Char) (a k : Nat) (hak : a + k ≤ l.length) (i : Nat) :
    (l.take a ++ List.replicate k 'x' ++ l.drop (a + k))[i]? =
      if a ≤ i ∧ i < a + k then some 'x' else l[i]? := by
  have hta : (l.take a).length = a := by rw [List.length_take]; omega
  have hA : (l.take a ++ List.replicate k 'x').length = a + k := by
    rw [List.length_append, hta, List.length_replicate]
  by_cases h1 : i < a
  · rw [if_neg (by omega), List.getElem?_append_left (by rw [hA]; omega),
      List.getElem?_append_left (by rw [hta]; omega), List.getElem?_take_of_lt h1]
  · by_cases h2 : i < a + k
    · rw [if_pos (by omega), List.getElem?_append_left (by rw [hA]; omega),
        List.getElem?_append_right (by rw [hta]; omega), hta,
        List.getElem?_replicate_of_lt (by omega)]
    · rw [if_neg (by omega), List.getElem?_append_right (by rw [hA]; omega), hA,
        List.getElem?_drop]
      congr 1
      omega

lemma list_disableCore_getElem? (g : ListGenome) (te : Nat) (r : TErec)
    (h0 : 0 ≤ r.start) (h1 : 0 ≤ r.len)
    (hb : r.start + r.len ≤ (g.genome.length : Int)) (i : Nat) :
    (g.disableCore te r).genome[i]? =
      if r.start ≤ (i : Int) ∧ (i : Int) < r.start + r.len then some 'x'
      else g.genome[i]? := by
  unfold ListGenome.disableCore
  dsimp only
  have ha : pySliceIdx g.genome.length r.start = r.start.toNat := by
    unfold pySliceIdx
    rw [if_neg (by omega)]
    omega
  have hb' : pySliceIdx g.genome.length (r.start + r.len) = r.start.toNat + r.len.toNat := by
    unfold pySliceIdx
    rw [if_neg (by omega)]
    omega
  rw [ha, hb', max_eq_right (by omega)]
  rw [overwrite_getElem? _ _ _ (by omega) i]
  by_cases hcond : r.start ≤ (i : Int) ∧ (i : Int) < r.start + r.len
  · rw [if_pos (by omega), if_pos hcond]
  · rw [if_neg (by omega), if_neg hcond]

lemma list_disableCore_length (g : ListGenome) (te : Nat) (r : TErec)
    (h0 : 0 ≤ r.start) (h1 : 0 ≤ r.len)
    (hb : r.start + r.len ≤ (g.genome.length : Int)) :
    (g.disableCore te r).genome.length = g.genome.length := by
  unfold ListGenome.disableCore
  dsimp only
  have ha : pySliceIdx g.genome.length r.start = r.start.toNat := by
    unfold pySliceIdx
    rw [if_neg (by omega)]
    omega
  have hb' : pySliceIdx g.genome.length (r.start + r.len) = r.start.toNat + r.len.toNat := by
    unfold pySliceIdx
    rw [if_neg (by omega)]
    omega
  rw [ha, hb', max_eq_right (by omega)]
  simp [List.length_append, List.length_take, List.length_drop, List.length_replicate]
  omega

lemma linked_disableCore_getElem? (g : LinkedListGenome) (te : Nat) (r : TErec)
    (h0 : 0 ≤ r.start) (h1 : 1 ≤ r.len)
    (hb : r.start + r.len ≤ (g.cells.length : Int)) (i : Nat) :
    (g.disableCore te r).cells[i]? =
      if r.start ≤ (i : Int) ∧ (i : Int) < r.start + r.len then some 'x'
      else g.cells[i]? := by
  unfold LinkedListGenome.disableCore linkedDisableCells
  rw [if_pos ⟨h0, by omega⟩]
  rw [linkedDisableWalk_getElem? _ _ _ i (by omega)]
  by_cases hcond : r.start ≤ (i : Int) ∧ (i : Int) < r.start + r.len
  · rw [if_pos (by omega), if_pos hcond]
  · rw [if_neg (by omega), if_neg hcond]

lemma linked_disableCore_length (g : LinkedListGenome) (te : Nat) (r : TErec) :
    (g.disableCore te r).cells.length = g.cells.length := by
  unfold LinkedListGenome.disableCore linkedDisableCells
  split
  · exact linkedDisableWalk_length _ _ _
  · rfl

lemma not_mem_activeList_update (TEs : Registry) (te : Nat) :
    te ∉ activeList (updateTE TEs te (fun t => { t with status := 'D' })) := by
  intro hmem
  unfold activeList updateTE at hmem
  obtain ⟨p, hp, hkey⟩ := List.mem_map.mp hmem
  have hp' := List.mem_filter.mp hp
  obtain ⟨q, hq, hfq⟩ := List.mem_map.mp hp'.1
  have hstat := hp'.2
  by_cases hqt : q.1 = te
  · rw [if_pos hqt] at hfq
    rw [← hfq] at hstat
    simp at hstat
  · rw [if_neg hqt] at hfq
    rw [← hfq] at hkey
    exact hqt hkey

lemma registryFrame_update (TEs : Registry) (te : Nat) :
    RegistryFrame TEs (updateTE TEs te (fun t => { t with status := 'D' })) := by
  intro id r₀ h
  rw [lookupTE_updateTE_some _ h te]
  by_cases hq : id = te <;> simp [hq]

lemma updateTE_update (TEs : Registry) (te : Nat) (f f' : TErec → TErec) :
    updateTE (updateTE TEs te f) te f' = updateTE TEs te (fun t => f' (f t)) := by
  unfold updateTE
  rw [List.map_map]
  congr 1
  funext p
  by_cases hp : p.1 = te <;> simp [hp]

lemma list_eq_of_parts {g₁ g₂ : ListGenome} (h1 : g₁.genome = g₂.genome)
    (h2 : g₁.TE_counter = g₂.TE_counter) (h3 : g₁.TEs = g₂.TEs) : g₁ = g₂ := by
  cases g₁; cases g₂; simp_all

lemma linked_eq_of_parts {g₁ g₂ : LinkedListGenome} (h1 : g₁.cells = g₂.cells)
    (h2 : g₁.TE_counter = g₂.TE_counter) (h3 : g₁.TEs = g₂.TEs) : g₁ = g₂ := by
  cases g₁; cases g₂; simp_all

lemma list_disableCore_TEs (g : ListGenome) (te : Nat) (r : TErec) :
    (g.disableCore te r).TEs = updateTE g.TEs te (fun t => { t with status := 'D' }) := rfl

lemma linked_disableCore_TEs (g : LinkedListGenome) (te : Nat) (r : TErec) :
    (g.disableCore te r).TEs = updateTE g.TEs te (fun t => { t with status := 'D' }) := rfl

lemma list_disableCore_idem (g : ListGenome) (te : Nat) (r : TErec)
    (h : lookupTE g.TEs te = some r) (h0 : 0 ≤ r.start) (h1 : 1 ≤ r.len)
    (hb : r.start + r.len ≤ (g.genome.length : Int)) :
    (g.disableCore te r).disable_te te = .ok (g.disableCore te r) := by
  have hlen : (g.disableCore te r).genome.length = g.genome.length :=
    list_disableCore_length g te r h0 (by omega) hb
  have hlk : lookupTE (g.disableCore te r).TEs te = some { r with status := 'D' } := by
    rw [list_disableCore_TEs, lookupTE_updateTE_some _ h te]
    simp
  unfold ListGenome.disable_te
  rw [hlk]
  dsimp only
  congr 1
  apply list_eq_of_parts
  · apply List.ext_getElem?
    intro i
    have hpt1 := list_disableCore_getElem? (g.disableCore te r) te
      { r with status := 'D' } h0 (by dsimp; omega) (by dsimp; rw [hlen]; exact hb) i
    have hpt2 := list_disableCore_getElem? g te r h0 (by omega) hb i
    dsimp at hpt1
    rw [hpt1, hpt2]
    by_cases hcond : r.start ≤ (i : Int) ∧ (i : Int) < r.start + r.len
    · rw [if_pos hcond, if_pos hcond]
    · rw [if_neg hcond, if_neg hcond]
  · rfl
  · rw [list_disableCore_TEs, list_disableCore_TEs, updateTE_update]

lemma linked_disableCore_idem (g : LinkedListGenome) (te : Nat) (r : TErec)
    (h : lookupTE g.TEs te = some r) (h0 : 0 ≤ r.start) (h1 : 1 ≤ r.len)
    (hb : r.start + r.len ≤ (g.cells.length : Int)) :
    (g.disableCore te r).disable_te te = .ok (g.disableCore te r) := by
  have hlen : (g.disableCore te r).cells.length = g.cells.length :=
    linked_disableCore_length g te r
  have hlk : lookupTE (g.disableCore te r).TEs te = some { r with status := 'D' } := by
    rw [linked_disableCore_TEs, lookupTE_updateTE_some _ h te]
    simp
  unfold LinkedListGenome.disable_te
  rw [hlk]
  dsimp only
  congr 1
  apply linked_eq_of_parts
  · apply List.ext_getElem?
    intro i
    have hpt1 := linked_disableCore_getElem? (g.disableCore te r) te
      { r with status := 'D' } h0 (by dsimp; omega) (by dsimp; rw [hlen]; exact hb) i
    have hpt2 := linked_disableCore_getElem? g te r h0 h1 hb i
    dsimp at hpt1
    rw [hpt1, hpt2]
    by_cases hcond : r.start ≤ (i : Int) ∧ (i : Int) < r.start + r.len
    · rw [if_pos hcond, if_pos hcond]
    · rw [if_neg hcond, if_neg hcond]
  · rfl
  · rw [linked_disableCore_TEs, linked_disableCore_TEs, updateTE_update]

/-- Claim C8: `disable_te` on an active TE whose recorded interval lies in
the genome overwrites exactly the cells `[start, start+length)` with `'x'`,
removes the id from `active_tes()`, never changes the genome's length nor
any record's `start`/`length` bookkeeping, and running `disable_te` again
right away is a no-op (the state is unchanged) — in both implementations. -/
theorem claim_C8_disable (g : ListGenome) (g2 : LinkedListGenome)
    (te te2 : Nat) (r r2 : TErec)
    (h : lookupTE g.TEs te = some r) (_hA : r.status = 'A')
    (h0 : 0 ≤ r.start) (h1 : 1 ≤ r.len)
    (hb : r.start + r.len ≤ (g.length : Int))
    (h2 : lookupTE g2.TEs te2 = some r2) (_hA2 : r2.status = 'A')
    (h02 : 0 ≤ r2.start) (h12 : 1 ≤ r2.len)
    (hb2 : r2.start + r2.len ≤ (g2.length : Int)) :
    ∃ g' g2',
      g.disable_te te = .ok g' ∧
      CellsDisabled g.genome g'.genome r.start r.len ∧
      g'.length = g.length ∧
      te ∉ g'.active_tes ∧
      RegistryFrame g.TEs g'.TEs ∧
      g'.disable_te te = .ok g' ∧
      g2.disable_te te2 = .ok g2' ∧
      CellsDisabled g2.cells g2'.cells r2.start r2.len ∧
      g2'.length = g2.length ∧
      te2 ∉ g2'.active_tes ∧
      RegistryFrame g2.TEs g2'.TEs ∧
      g2'.disable_te te2 = .ok g2' := by
  refine ⟨g.disableCore te r, g2.disableCore te2 r2,
    ?_, ?_, ?_, ?_, ?_, ?_, ?_, ?_, ?_, ?_, ?_, ?_⟩
  · simp [ListGenome.disable_te, h]
  · intro i
    exact list_disableCore_getElem? g te r h0 (by omega) hb i
  · exact list_disableCore_length g te r h0 (by omega) hb
  · exact not_mem_activeList_update g.TEs te
  · exact registryFrame_update g.TEs te
  · exact list_disableCore_idem g te r h h0 h1 hb
  · simp [LinkedListGenome.disable_te, h2]
  · intro i
    exact linked_disableCore_getElem? g2 te2 r2 h02 h12 hb2 i
  · exact linked_disableCore_length g2 te2 r2
  · exact not_mem_activeList_update g2.TEs te2
  · exact registryFrame_update g2.TEs te2
  · exact linked_disableCore_idem g2 te2 r2 h2 h02 h12 hb2

/-- Witness for claim C8 at a concrete input: TE 1 of record `[0, 2, 'A']`
on the 3-cell genome `AA-` in both implementations. -/
theorem claim_C8_disable_witness :
    (lookupTE [(1, ⟨0, 2, 'A'⟩)] 1 = some ⟨0, 2, 'A'⟩ ∧
     (0 : Int) ≤ 0 ∧ (1 : Int) ≤ 2 ∧
     (0 : Int) + 2 ≤ ((ListGenome.mk ['A', 'A', '-'] 1 [(1, ⟨0, 2, 'A'⟩)]).length : Int)) ∧
    (∃ g' g2',
      (ListGenome.mk ['A', 'A', '-'] 1 [(1, ⟨0, 2, 'A'⟩)]).disable_te 1 = .ok g' ∧
      CellsDisabled ['A', 'A', '-'] g'.genome 0 2 ∧
      g'.length = (ListGenome.mk ['A', 'A', '-'] 1 [(1, ⟨0, 2, 'A'⟩)]).length ∧
      1 ∉ g'.active_tes ∧
      RegistryFrame [(1, ⟨0, 2, 'A'⟩)] g'.TEs ∧
      g'.disable_te 1 = .ok g' ∧
      (LinkedListGenome.mk ['A', 'A', '-'] 1 [(1, ⟨0, 2, 'A'⟩)]).disable_te 1 = .ok g2' ∧
      CellsDisabled ['A', 'A', '-'] g2'.cells 0 2 ∧
      g2'.length = (LinkedListGenome.mk ['A', 'A', '-'] 1 [(1, ⟨0, 2, 'A'⟩)]).length ∧
      1 ∉ g2'.active_tes ∧
      RegistryFrame [(1, ⟨0, 2, 'A'⟩)] g2'.TEs ∧
      g2'.disable_te 1 = .ok g2') :=
  ⟨⟨by decide, by decide, by decide, by decide⟩,
   claim_C8_disable (ListGenome.mk ['A', 'A', '-'] 1 [(1, ⟨0, 2, 'A'⟩)])
     (LinkedListGenome.mk ['A', 'A', '-'] 1 [(1, ⟨0, 2, 'A'⟩)])
     1 1 ⟨0, 2, 'A'⟩ ⟨0, 2, 'A'⟩
     (by decide) (by decide) (by decide) (by decide) (by decide)
     (by decide) (by decide) (by decide) (by decide) (by decide)⟩

/-!
### Claim C10: pairwise disjointness of active intervals
-/

lemma scanTEs_eq_none {TEs : Registry} {pos : Int}
    (hc : findCollision TEs pos = none) : scanTEs TEs pos = TEs := by
  unfold scanTEs
  rw [hc]

lemma scanTEs_eq_some {TEs : Registry} {pos : Int} {c : Nat × TErec}
    (hc : findCollision TEs pos = some c) :
    scanTEs TEs pos = updateTE TEs c.1 (fun r => { r with status := 'D' }) := by
  unfold scanTEs
  rw [hc]

lemma keys_updateTE (TEs : Registry) (te : Nat) (f : TErec → TErec) :
    (updateTE TEs te f).map Prod.fst = TEs.map Prod.fst := by
  unfold updateTE
  rw [List.map_map]
  congr 1
  funext p
  by_cases hp : p.1 = te <;> simp [hp, Function.comp]

lemma keys_shiftTEs (TEs : Registry) (pos L : Int) :
    (shiftTEs TEs pos L).map Prod.fst = TEs.map Prod.fst := by
  unfold shiftTEs
  rw [List.map_map]
  congr 1
  funext p
  by_cases hp : pos ≤ p.2.start <;> simp [hp, Function.comp]

lemma keys_scanTEs (TEs : Registry) (pos : Int) :
    (scanTEs TEs pos).map Prod.fst = TEs.map Prod.fst := by
  cases hc : findCollision TEs pos with
  | none => rw [scanTEs_eq_none hc]
  | some c => rw [scanTEs_eq_some hc]; exact keys_updateTE TEs c.1 _

lemma mem_updateTE_elim {TEs : Registry} {te : Nat} {f : TErec → TErec}
    {p : Nat × TErec} (hp : p ∈ updateTE TEs te f) :
    ∃ q ∈ TEs, p = if q.1 = te then (q.1, f q.2) else q := by
  unfold updateTE at hp
  obtain ⟨q, hq, hfq⟩ := List.mem_map.mp hp
  exact ⟨q, hq, hfq.symm⟩

lemma mem_shiftTEs_elim {TEs : Registry} {pos L : Int} {p : Nat × TErec}
    (hp : p ∈ shiftTEs TEs pos L) :
    ∃ q ∈ TEs,
      p = if pos ≤ q.2.start then (q.1, { q.2 with start := q.2.start + L }) else q := by
  unfold shiftTEs at hp
  obtain ⟨q, hq, hfq⟩ := List.mem_map.mp hp
  exact ⟨q, hq, hfq.symm⟩

/-- Every record of the shifted-and-scanned registry descends from a record
of the original registry with the same key and length. -/
lemma mem_shift_scan_elim {TEs : Registry} {pos L : Int} {p : Nat × TErec}
    (hp : p ∈ shiftTEs (scanTEs TEs pos) pos L) :
    ∃ q ∈ TEs, p.1 = q.1 ∧ p.2.len = q.2.len := by
  obtain ⟨s, hs, hps⟩ := mem_shiftTEs_elim hp
  have hkey : p.1 = s.1 := by rw [hps]; split <;> rfl
  have hl : p.2.len = s.2.len := by rw [hps]; split <;> rfl
  cases hc : findCollision TEs pos with
  | none =>
    rw [scanTEs_eq_none hc] at hs
    exact ⟨s, hs, hkey, hl⟩
  | some c =>
    rw [scanTEs_eq_some hc] at hs
    obtain ⟨q, hq, hsq⟩ := mem_updateTE_elim hs
    have hkey2 : s.1 = q.1 := by rw [hsq]; split <;> rfl
    have hl2 : s.2.len = q.2.len := by rw [hsq]; split <;> rfl
    exact ⟨q, hq, hkey.trans hkey2, hl.trans hl2⟩

/-- An active record of the registry left by `insert_te`'s scan-and-shift
descends from an active record of the original registry; it is either
shifted (its old start was at or after `pos`) or untouched, and in the
untouched case its old interval ended at or before `pos` (otherwise the
scan would have disabled it, by disjointness). -/
lemma active_of_mem_insert_reg {TEs : Registry} {pos L : Int}
    (hdisj : DisjointActives TEs)
    {p : Nat × TErec} (hp : p ∈ shiftTEs (scanTEs TEs pos) pos L)
    (hA : p.2.status = 'A') :
    ∃ q ∈ TEs, q.2.status = 'A' ∧ p.1 = q.1 ∧ p.2.len = q.2.len ∧
      ((pos ≤ q.2.start ∧ p.2.start = q.2.start + L) ∨
       (q.2.start + q.2.len ≤ pos ∧ p.2.start = q.2.start)) := by
  obtain ⟨s, hs, hps⟩ := mem_shiftTEs_elim hp
  have hsA : s.2.status = 'A' := by
    by_cases hcs : pos ≤ s.2.start
    · rw [if_pos hcs] at hps
      rw [hps] at hA
      exact hA
    · rw [if_neg hcs] at hps
      rw [hps] at hA
      exact hA
  cases hc : findCollision TEs pos with
  | none =>
    rw [scanTEs_eq_none hc] at hs
    have hc' : TEs.find? (collides pos) = none := hc
    by_cases hcs : pos ≤ s.2.start
    · rw [if_pos hcs] at hps
      refine ⟨s, hs, hsA, by rw [hps], by rw [hps], Or.inl ⟨hcs, by rw [hps]⟩⟩
    · rw [if_neg hcs] at hps
      have hncol := List.find?_eq_none.mp hc' s hs
      simp [collides, hsA] at hncol
      refine ⟨s, hs, hsA, by rw [hps], by rw [hps], Or.inr ⟨by omega, by rw [hps]⟩⟩
  | some c =>
    rw [scanTEs_eq_some hc] at hs
    obtain ⟨q, hq, hsq⟩ := mem_updateTE_elim hs
    by_cases hqc : q.1 = c.1
    · rw [if_pos hqc] at hsq
      rw [hsq] at hsA
      simp at hsA
    · rw [if_neg hqc] at hsq
      rw [hsq] at hps hsA
      by_cases hcs : pos ≤ q.2.start
      · rw [if_pos hcs] at hps
        refine ⟨q, hq, hsA, by rw [hps], by rw [hps], Or.inl ⟨hcs, by rw [hps]⟩⟩
      · rw [if_neg hcs] at hps
        have hcmem : c ∈ TEs := List.mem_of_find?_eq_some hc
        have hccol := List.find?_some (p := collides pos) hc
        simp [collides] at hccol
        have hqe : q.2.start + q.2.len ≤ pos := by
          by_contra hlt
          have hdq := hdisj q hq c hcmem hqc hsA hccol.1.1
          have hc1 := hccol.1.2
          have hc2 := hccol.2
          omega
        refine ⟨q, hq, hsA, by rw [hps], by rw [hps], Or.inr ⟨hqe, by rw [hps]⟩⟩

/-- `RegInv` is preserved by the registry transformation of `insert_te`
whenever the inserted length is at least 1. -/
lemma regInv_insert {cnt : Nat} {TEs : Registry} (pos L : Int)
    (hI : RegInv cnt TEs) (hL : 1 ≤ L) :
    RegInv (cnt + 1)
      (shiftTEs (scanTEs TEs pos) pos L ++ [(cnt + 1, ⟨pos, L, 'A'⟩)]) := by
  obtain ⟨hle, hnd, hlen, hdisj⟩ := hI
  have hkeys : (shiftTEs (scanTEs TEs pos) pos L).map Prod.fst = TEs.map Prod.fst := by
    rw [keys_shiftTEs, keys_scanTEs]
  refine ⟨?_, ?_, ?_, ?_⟩
  · intro p hp
    rcases List.mem_append.mp hp with hp | hp
    · obtain ⟨q, hq, hkey, _⟩ := mem_shift_scan_elim hp
      have := hle q hq
      omega
    · have hp' : p = (cnt + 1, ⟨pos, L, 'A'⟩) := by simpa using hp
      rw [hp']
  · rw [List.map_append, hkeys]
    rw [List.nodup_append]
    refine ⟨hnd, by simp, ?_⟩
    intro a ha hb
    have hb' : a = cnt + 1 := by simpa using hb
    obtain ⟨q, hq, hkey⟩ := List.mem_map.mp ha
    have := hle q hq
    omega
  · intro p hp
    rcases List.mem_append.mp hp with hp | hp
    · obtain ⟨q, hq, _, hl⟩ := mem_shift_scan_elim hp
      rw [hl]
      exact hlen q hq
    · have hp' : p = (cnt + 1, ⟨pos, L, 'A'⟩) := by simpa using hp
      rw [hp']
      exact hL
  · intro p hp q hq hkne hpA hqA
    rcases List.mem_append.mp hp with hp | hp <;> rcases List.mem_append.mp hq with hq | hq
    · obtain ⟨p0, hp0, hp0A, hpk, hpl, hpd⟩ := active_of_mem_insert_reg hdisj hp hpA
      obtain ⟨q0, hq0, hq0A, hqk, hql, hqd⟩ := active_of_mem_insert_reg hdisj hq hqA
      by_cases hk0 : p0.1 = q0.1
      · exact absurd (hpk.trans (hk0.trans hqk.symm)) hkne
      · have hd0 := hdisj p0 hp0 q0 hq0 hk0 hp0A hq0A
        rw [hpl, hql]
        rcases hpd with ⟨hps, hpe⟩ | ⟨hps, hpe⟩ <;>
          rcases hqd with ⟨hqs, hqe⟩ | ⟨hqs, hqe⟩ <;> rw [hpe, hqe] <;> omega
    · obtain ⟨p0, hp0, hp0A, hpk, hpl, hpd⟩ := active_of_mem_insert_reg hdisj hp hpA
      have hq' : q = (cnt + 1, ⟨pos, L, 'A'⟩) := by simpa using hq
      have hqs0 : q.2.start = pos := by rw [hq']
      have hql0 : q.2.len = L := by rw [hq']
      rw [hqs0, hql0, hpl]
      rcases hpd with ⟨hps, hpe⟩ | ⟨hps, hpe⟩ <;> rw [hpe] <;> omega
    · obtain ⟨q0, hq0, hq0A, hqk, hql, hqd⟩ := active_of_mem_insert_reg hdisj hq hqA
      have hp' : p = (cnt + 1, ⟨pos, L, 'A'⟩) := by simpa using hp
      have hps0 : p.2.start = pos := by rw [hp']
      have hpl0 : p.2.len = L := by rw [hp']
      rw [hps0, hpl0, hql]
      rcases hqd with ⟨hqs, hqe⟩ | ⟨hqs, hqe⟩ <;> rw [hqe] <;> omega
    · have hp' : p = (cnt + 1, ⟨pos, L, 'A'⟩) := by simpa using hp
      have hq' : q = (cnt + 1, ⟨pos, L, 'A'⟩) := by simpa using hq
      exact absurd (congrArg Prod.fst (hp'.trans hq'.symm)) hkne

/-- `RegInv` is preserved by disabling a record. -/
lemma regInv_update {cnt : Nat} {TEs : Registry} (te : Nat) (hI : RegInv cnt TEs) :
    RegInv cnt (updateTE TEs te (fun t => { t with status := 'D' })) := by
  obtain ⟨hle, hnd, hlen, hdisj⟩ := hI
  refine ⟨?_, ?_, ?_, ?_⟩
  · intro p hp
    obtain ⟨q, hq, hpq⟩ := mem_updateTE_elim hp
    have hkey : p.1 = q.1 := by rw [hpq]; split <;> rfl
    rw [hkey]
    exact hle q hq
  · rw [keys_updateTE]
    exact hnd
  · intro p hp
    obtain ⟨q, hq, hpq⟩ := mem_updateTE_elim hp
    have hl : p.2.len = q.2.len := by rw [hpq]; split <;> rfl
    rw [hl]
    exact hlen q hq
  · intro p hp q hq hkne hpA hqA
    obtain ⟨p0, hp0, hpq0⟩ := mem_updateTE_elim hp
    obtain ⟨q0, hq0, hqq0⟩ := mem_updateTE_elim hq
    have hpeq : p = p0 := by
      by_cases hc : p0.1 = te
      · rw [if_pos hc] at hpq0
        rw [hpq0] at hpA
        simp at hpA
      · rw [if_neg hc] at hpq0
        exact hpq0
    have hqeq : q = q0 := by
      by_cases hc : q0.1 = te
      · rw [if_pos hc] at hqq0
        rw [hqq0] at hqA
        simp at hqA
      · rw [if_neg hc] at hqq0
        exact hqq0
    rw [hpeq] at hpA hkne ⊢
    rw [hqeq] at hqA hkne ⊢
    exact hdisj p0 hp0 q0 hq0 hkne hpA hqA

lemma list_insert_te_counter (g : ListGenome) (pos L : Int) :
    ((g.insert_te pos L).2).TE_counter = g.TE_counter + 1 := by
  cases hc : findCollision g.TEs pos <;> simp [ListGenome.insert_te, hc]

lemma linked_insert_te_counter (g : LinkedListGenome) (pos L : Int) :
    ((g.insert_te pos L).2).TE_counter = g.TE_counter + 1 := by
  cases hc : findCollision g.TEs pos <;> simp [LinkedListGenome.insert_te, hc]

lemma lookupTE_mem {TEs : Registry} {te : Nat} {r : TErec}
    (h : lookupTE TEs te = some r) : ∃ p ∈ TEs, p.1 = te ∧ p.2 = r := by
  obtain ⟨p, hf, hk, hr⟩ := lookupTE_some_elim h
  exact ⟨p, List.mem_of_find?_eq_some hf, hk, hr⟩

lemma list_copy_te_ok {g g' : ListGenome} {te : Nat} {off : Int}
    {res : Option Nat} (hok : g.copy_te te off = .ok (res, g')) :
    (∃ r, lookupTE g.TEs te = some r ∧ r.status ≠ 'A' ∧ g' = g) ∨
    (∃ r, lookupTE g.TEs te = some r ∧ r.status = 'A' ∧ g.genome.length ≠ 0 ∧
      g' = (g.insert_te ((r.start + off) % (g.genome.length : Int)) r.len).2) := by
  unfold ListGenome.copy_te at hok
  cases hlk : lookupTE g.TEs te with
  | none => rw [hlk] at hok; cases hok
  | some r =>
    rw [hlk] at hok
    dsimp only at hok
    by_cases hA : r.status = 'A'
    · rw [if_pos hA] at hok
      by_cases hz : g.genome.length = 0
      · rw [if_pos hz] at hok; cases hok
      · rw [if_neg hz] at hok
        right
        refine ⟨r, rfl, hA, hz, ?_⟩
        injection hok with hpair
        injection hpair with h1 h2
        exact h2.symm
    · rw [if_neg hA] at hok
      left
      refine ⟨r, rfl, hA, ?_⟩
      injection hok with hpair
      injection hpair with h1 h2
      exact h2.symm

lemma linked_copy_te_ok {g g' : LinkedListGenome} {te : Nat} {off : Int}
    {res : Option Nat} (hok : g.copy_te te off = .ok (res, g')) :
    (∃ r, lookupTE g.TEs te = some r ∧ r.status ≠ 'A' ∧ g' = g) ∨
    (∃ r, lookupTE g.TEs te = some r ∧ r.status = 'A' ∧ g.cells.length ≠ 0 ∧
      g' = (g.insert_te ((r.start + off) % (g.cells.length : Int)) r.len).2) := by
  unfold LinkedListGenome.copy_te at hok
  cases hlk : lookupTE g.TEs te with
  | none => rw [hlk] at hok; cases hok
  | some r =>
    rw [hlk] at hok
    dsimp only at hok
    by_cases hA : r.status = 'A'
    · rw [if_pos hA] at hok
      by_cases hz : g.cells.length = 0
      · rw [if_pos hz] at hok; cases hok
      · rw [if_neg hz] at hok
        right
        refine ⟨r, rfl, hA, hz, ?_⟩
        injection hok with hpair
        injection hpair with h1 h2
        exact h2.symm
    · rw [if_neg hA] at hok
      left
      refine ⟨r, rfl, hA, ?_⟩
      injection hok with hpair
      injection hpair with h1 h2
      exact h2.symm

lemma list_disable_te_ok {g g' : ListGenome} {te : Nat}
    (hok : g.disable_te te = .ok g') :
    ∃ r, lookupTE g.TEs te = some r ∧ g' = g.disableCore te r := by
  unfold ListGenome.disable_te at hok
  cases hlk : lookupTE g.TEs te with
  | none => rw [hlk] at hok; cases hok
  | some r =>
    rw [hlk] at hok
    injection hok with h2
    exact ⟨r, rfl, h2.symm⟩

lemma linked_disable_te_ok {g g' : LinkedListGenome} {te : Nat}
    (hok : g.disable_te te = .ok g') :
    ∃ r, lookupTE g.TEs te = some r ∧ g' = g.disableCore te r := by
  unfold LinkedListGenome.disable_te at hok
  cases hlk : lookupTE g.TEs te with
  | none => rw [hlk] at hok; cases hok
  | some r =>
    rw [hlk] at hok
    injection hok with h2
    exact ⟨r, rfl, h2.symm⟩

/-- Every reachable `ListGenome` state satisfies the registry invariant. -/
lemma reachableL_regInv {g : ListGenome} (h : ReachableL g) :
    RegInv g.TE_counter g.TEs := by
  induction h with
  | init n =>
    refine ⟨fun p hp => ?_, by simp [ListGenome.init], fun p hp => ?_,
      fun p hp => ?_⟩ <;> simp [ListGenome.init] at hp
  | insert g pos length hg h0 h1 hL ih =>
    rw [list_insert_te_counter, list_insert_te_TEs]
    exact regInv_insert pos length ih hL
  | copy g g' te off res hg hok ih =>
    rcases list_copy_te_ok hok with ⟨r, hlk, hA, hg'⟩ | ⟨r, hlk, hA, hz, hg'⟩
    · rw [hg']
      exact ih
    · rw [hg', list_insert_te_counter, list_insert_te_TEs]
      obtain ⟨p, hmem, hk, hr⟩ := lookupTE_mem hlk
      have hlen1 : 1 ≤ r.len := by
        have := ih.2.2.1 p hmem
        rw [hr] at this
        exact this
      exact regInv_insert _ _ ih hlen1
  | disable g g' te hg hok ih =>
    obtain ⟨r, hlk, hg'⟩ := list_disable_te_ok hok
    rw [hg']
    show RegInv (g.disableCore te r).TE_counter (g.disableCore te r).TEs
    rw [list_disableCore_TEs]
    exact regInv_update te ih

/-- Every reachable `LinkedListGenome` state satisfies the registry
invariant. -/
lemma reachableLL_regInv {g : LinkedListGenome} (h : ReachableLL g) :
    RegInv g.TE_counter g.TEs := by
  induction h with
  | init n =>
    refine ⟨fun p hp => ?_, by simp [LinkedListGenome.init], fun p hp => ?_,
      fun p hp => ?_⟩ <;> simp [LinkedListGenome.init] at hp
  | insert g pos length hg h0 h1 hL ih =>
    rw [linked_insert_te_counter, linked_insert_te_TEs]
    exact regInv_insert pos length ih hL
  | copy g g' te off res hg hok ih =>
    rcases linked_copy_te_ok hok with ⟨r, hlk, hA, hg'⟩ | ⟨r, hlk, hA, hz, hg'⟩
    · rw [hg']
      exact ih
    · rw [hg', linked_insert_te_counter, linked_insert_te_TEs]
      obtain ⟨p, hmem, hk, hr⟩ := lookupTE_mem hlk
      have hlen1 : 1 ≤ r.len := by
        have := ih.2.2.1 p hmem
        rw [hr] at this
        exact this
      exact regInv_insert _ _ ih hlen1
  | disable g g' te hg hok ih =>
    obtain ⟨r, hlk, hg'⟩ := linked_disable_te_ok hok
    rw [hg']
    show RegInv (g.disableCore te r).TE_counter (g.disableCore te r).TEs
    rw [linked_disableCore_TEs]
    exact regInv_update te ih

lemma eq_of_keys_nodup {TEs : Registry} (hnd : (TEs.map Prod.fst).Nodup)
    {p q : Nat × TErec} (hp : p ∈ TEs) (hq : q ∈ TEs) (hk : p.1 = q.1) : p = q :=
  List.inj_on_of_nodup_map hnd hp hq hk

lemma unique_container {TEs : Registry} (hnd : (TEs.map Prod.fst).Nodup)
    (hdisj : DisjointActives TEs) (pos : Int) {p q : Nat × TErec}
    (hp : p ∈ TEs) (hq : q ∈ TEs) (hpA : p.2.status = 'A') (hqA : q.2.status = 'A')
    (hps : StrictlyContains p pos) (hqs : StrictlyContains q pos) : p = q := by
  by_cases hk : p.1 = q.1
  · exact eq_of_keys_nodup hnd hp hq hk
  · exfalso
    obtain ⟨hps1, hps2⟩ := hps
    obtain ⟨hqs1, hqs2⟩ := hqs
    rcases hdisj p hp q hq hk hpA hqA with hd | hd <;> omega

/-- Claim C10: in every state reachable from a fresh genome by in-range
`insert_te`, `copy_te` and `disable_te` calls, the recorded intervals of
distinct active TEs are pairwise disjoint; consequently at most one active
record strictly contains any given insertion position, so the scan that
disables the first qualifying overlap and stops can never skip a second
simultaneously qualifying record.  Both implementations. -/
theorem claim_C10_invariant (g : ListGenome) (hg : ReachableL g)
    (g2 : LinkedListGenome) (hg2 : ReachableLL g2) :
    DisjointActives g.TEs ∧ DisjointActives g2.TEs ∧
    (∀ pos : Int, ∀ p ∈ g.TEs, ∀ q ∈ g.TEs, p.2.status = 'A' → q.2.status = 'A' →
       StrictlyContains p pos → StrictlyContains q pos → p = q) ∧
    (∀ pos : Int, ∀ p ∈ g2.TEs, ∀ q ∈ g2.TEs, p.2.status = 'A' → q.2.status = 'A' →
       StrictlyContains p pos → StrictlyContains q pos → p = q) := by
  have h1 := reachableL_regInv hg
  have h2 := reachableLL_regInv hg2
  refine ⟨h1.2.2.2, h2.2.2.2, ?_, ?_⟩
  · intro pos p hp q hq hpA hqA hps hqs
    exact unique_container h1.2.1 h1.2.2.2 pos hp hq hpA hqA hps hqs
  · intro pos p hp q hq hpA hqA hps hqs
    exact unique_container h2.2.1 h2.2.2.2 pos hp hq hpA hqA hps hqs

/-- Witness for claim C10 at concrete reachable states: one in-range
insertion on a fresh size-5 genome of each implementation. -/
theorem claim_C10_invariant_witness :
    DisjointActives ((ListGenome.init 5).insert_te 0 2).2.TEs ∧
    DisjointActives ((LinkedListGenome.init 5).insert_te 1 2).2.TEs ∧
    (∀ pos : Int, ∀ p ∈ ((ListGenome.init 5).insert_te 0 2).2.TEs,
       ∀ q ∈ ((ListGenome.init 5).insert_te 0 2).2.TEs,
       p.2.status = 'A' → q.2.status = 'A' →
       StrictlyContains p pos → StrictlyContains q pos → p = q) ∧
    (∀ pos : Int, ∀ p ∈ ((LinkedListGenome.init 5).insert_te 1 2).2.TEs,
       ∀ q ∈ ((LinkedListGenome.init 5).insert_te 1 2).2.TEs,
       p.2.status = 'A' → q.2.status = 'A' →
       StrictlyContains p pos → StrictlyContains q pos → p = q) :=
  claim_C10_invariant ((ListGenome.init 5).insert_te 0 2).2
    (ReachableL.insert (ListGenome.init 5) 0 2 (ReachableL.init 5)
      (by decide) (by decide) (by decide))
    ((LinkedListGenome.init 5).insert_te 1 2).2
    (ReachableLL.insert (LinkedListGenome.init 5) 1 2 (ReachableLL.init 5)
      (by decide) (by decide) (by decide))

